import Mathlib

/-!
Shallow embedding of `src/CorzzLoader_CLI.py` (Corzz Optimizer loader).

The program is a Windows console utility whose operations are thin wrappers
around external commands (`powercfg`), the registry (`winreg`) and the file
system.  Each operation is modelled as a pure Lean function over an explicit
state; outcomes of OS calls that can fail (process launch, `stat`, `chmod`,
`unlink`, file writes, directory creation, registry key opens) are supplied
as explicit parameters or state fields, since the Python code only branches
on their success, never on any further detail.

Strings manipulated character-by-character (GUIDs, state-file lines) are
modelled as `List Char`; a text file's content is modelled as its
`splitlines()` decomposition, a `List (List Char)`.
-/

namespace Corzz

/-! ### Logger (`log`, lines 25–32, and module-level `LOG_DIR.mkdir`, line 18)

`log` opens the log file in append mode and writes one line inside a
`try/except Exception: pass`, so a failed write leaves the log unchanged and
never raises.  The log file is modelled as its list of lines; `writeOk`
says whether the `open`/`write` succeeds; `ts` is the formatted timestamp. -/

def log (writeOk : Bool) (ts : String) (logFile : List String) (msg : String) :
    List String :=
  if writeOk then logFile ++ ["[" ++ ts ++ "] " ++ msg] else logFile

/-- Module-level `LOG_DIR.mkdir(parents=True, exist_ok=True)` (line 18).
It runs at import time with **no** surrounding `try/except`, so a failure
(e.g. `PermissionError`) propagates and aborts the process before any menu
action can run.  `mkdirOk` says whether the OS permits the creation. -/
def logDirMkdir (mkdirOk : Bool) : Except String Unit :=
  if mkdirOk then Except.ok () else Except.error "PermissionError"

/-! ### Privileged command runner (`run`, lines 47–61)

`subprocess.run` has three relevant outcomes: normal completion (with exit
code, stdout, stderr), `subprocess.TimeoutExpired`, and any other launch
exception.  The Python function catches the latter two and always returns a
`(returncode, stdout, stderr)` triple. -/

inductive ProcResult : Type where
  | completed (code : Int) (stdout stderr : String)
  | timeoutExpired
  | launchError (msg : String)
deriving DecidableEq, Repr

def run (r : ProcResult) : Int × String × String :=
  match r with
  | ProcResult.completed code stdout stderr => (code, stdout, stderr)
  | ProcResult.timeoutExpired => (1, "", "Timeout")
  | ProcResult.launchError msg => (1, "", msg)

/-! ### Temp cleaner (`clean_temp`, lines 131–161)

The walk visits files in some order; we model the visited files as a list.
For each file the code runs, inside `try/except Exception: continue`:
`fp.stat().st_mtime` (age test), `fp.stat().st_size`, `os.chmod`,
`fp.unlink`, and only then `freed += sz`.  A failure of any step skips the
file and continues the walk; `statOk`, `chmodOk`, `unlinkOk` say whether
the corresponding OS calls succeed.  The trailing `rmdir` loop never touches
`freed`, so it is not modelled. -/

structure TFile : Type where
  size : Nat
  mtime : Int
  statOk : Bool
  chmodOk : Bool
  unlinkOk : Bool
deriving DecidableEq, Repr

/-- Line 137: `cutoff = time.time() - older_days*86400 if older_days else None`
(line 137); `older_days` is an `int` (0 is falsy, any non-zero value,
negative included, is truthy). `now` stands for `time.time()`. -/
def cutoffOf (older_days : Int) (now : Int) : Option Int :=
  if older_days ≠ 0 then some (now - older_days * 86400) else none

/-- The per-file age test `if cutoff and fp.stat().st_mtime > cutoff:
continue` (line 146): skip only when `cutoff` is truthy (not `None` and not
numerically zero) and the file is newer than the cutoff. -/
def ageSkip (cutoff : Option Int) (mtime : Int) : Bool :=
  match cutoff with
  | none => false
  | some c => decide (c ≠ 0) && decide (mtime > c)

/-- One iteration of the inner file loop (lines 143–153): returns the new
`freed` accumulator. -/
def cleanStep (cutoff : Option Int) (freed : Nat) (f : TFile) : Nat :=
  if !f.statOk then freed
  else if ageSkip cutoff f.mtime then freed
  else if f.chmodOk && f.unlinkOk then freed + f.size
  else freed

def clean_temp (older_days : Int) (now : Int) (files : List TFile) : Nat :=
  let cutoff := cutoffOf older_days now
  files.foldl (fun freed f => cleanStep cutoff freed f) 0

/-! ### Character-level helpers for GUID parsing and the state file -/

/-- A GUID as the Python code handles it: a raw character sequence. -/
abbrev Guid := List Char

/-- The character class `[a-fA-F0-9\-]` of the regex on line 68. -/
def isGuidChar (c : Char) : Bool :=
  c.isDigit || (decide ('a' ≤ c) && decide (c ≤ 'f')) ||
    (decide ('A' ≤ c) && decide (c ≤ 'F')) || decide (c = '-')

/-- Python `str.lower()` applied characterwise. -/
def toLowerChars (l : List Char) : List Char := l.map Char.toLower

/-- Python `str.strip()`: drop whitespace from both ends. -/
def stripChars (l : List Char) : List Char :=
  ((l.dropWhile Char.isWhitespace).reverse.dropWhile Char.isWhitespace).reverse

/-- Python `line.startswith(pat)` where `pat` is the first argument. -/
def startsWithChars : List Char → List Char → Bool
  | [], _ => true
  | _ :: _, [] => false
  | p :: ps, c :: cs => decide (p = c) && startsWithChars ps cs

/-- Python `line.split("=", 1)[1]`: everything after the first `=`.  In the source
this is only evaluated on lines that start with `previous_scheme=`, so an
`=` is always present; on an `=`-free line Python would raise `IndexError`
and we return `[]` (the difference is unreachable under the guard). -/
def splitAfterFirstEq : List Char → List Char
  | [] => []
  | c :: rest => if c = '=' then rest else splitAfterFirstEq rest

/-! ### Power plan manager (lines 63–103)

`re.search(r"GUID:\s*([a-fA-F0-9\-]{36})", out)` (line 68): scan for the
leftmost position where the literal `GUID:` is followed by (greedily
consumed) whitespace and then 36 characters of the class.  Since no
whitespace character is in the class, the greedy `\s*` never backtracks, so
the match at a candidate position succeeds exactly when the 36 characters
after the whitespace run are all in the class. -/

def GUID_TAG : List Char := "GUID:".toList

def guidSearch : List Char → Option Guid
  | [] => none
  | c :: rest =>
    if startsWithChars GUID_TAG (c :: rest) then
      let cand := (((c :: rest).drop GUID_TAG.length).dropWhile Char.isWhitespace).take 36
      if cand.length = 36 && cand.all isGuidChar then some cand
      else guidSearch rest
    else guidSearch rest

/-- Embeds `get_active_power_scheme_guid` (lines 65–71): the `powercfg
/getactivescheme` invocation is summarized by its exit code `rc` and its
stdout `out`; `if rc == 0 and out:` then return the regex group if it
matches, else fall through to `return None`. -/
def get_active_power_scheme_guid (rc : Int) (out : List Char) : Option Guid :=
  if rc = 0 ∧ out ≠ [] then guidSearch out else none

def POWER_ULTIMATE_GUID : Guid := "e9a42b02-d5df-448d-aa00-03f14749eb61".toList

def PREV_KEY : List Char := "previous_scheme=".toList

/-- Power-plan state visible to the program:
* `active` — the GUID of the currently active scheme;
* `schemes` — the GUIDs listed by `powercfg /list`;
* `stateFile` — content of `state_cli.ini` as its `splitlines()`
  decomposition, or `none` when the file does not exist;
* `setactiveLog` — the targets of every `powercfg /setactive` issued, in
  order (so "no activation command was issued" is expressible). -/
structure PState : Type where
  active : Guid
  schemes : List Guid
  stateFile : Option (List (List Char))
  setactiveLog : List Guid
deriving DecidableEq, Repr

/-- The command `powercfg /setactive g`: recorded in the log; it succeeds when the
scheme exists (GUIDs are case-insensitive on Windows), and then `g` becomes
the active scheme. -/
def setactive (g : Guid) (s : PState) : Bool × PState :=
  let s := { s with setactiveLog := s.setactiveLog ++ [g] }
  if toLowerChars g ∈ s.schemes.map toLowerChars then
    (true, { s with active := g })
  else (false, s)

/-- Embeds `enable_ultimate` (lines 74–87).
* `queryResult` is the value returned by the inner call to
  `get_active_power_scheme_guid()` (the regex group, or `None`);
* `writeOk` says whether `STATE_PATH.write_text(...)` succeeds (line 81;
  its failure is swallowed by `except Exception: pass`).
Steps: `powercfg /list` and, if the Ultimate GUID is not a (lowercased)
member, `powercfg /duplicatescheme` makes it available; then the previous
scheme is persisted when the query parsed (`if prev:`), and finally
`powercfg /setactive POWER_ULTIMATE_GUID` decides the return value. -/
def enable_ultimate (queryResult : Option Guid) (writeOk : Bool) (s : PState) :
    Bool × PState :=
  let s1 :=
    if POWER_ULTIMATE_GUID ∈ s.schemes.map toLowerChars then s
    else { s with schemes := s.schemes ++ [POWER_ULTIMATE_GUID] }
  let s2 :=
    match queryResult with
    | some prev =>
      if prev = [] then s1
      else if writeOk then { s1 with stateFile := some [PREV_KEY ++ prev] }
      else s1
    | none => s1
  setactive POWER_ULTIMATE_GUID s2

/-- Embeds `restore_power` (lines 90–103): if the state file does not exist,
return `False`; otherwise scan its lines keeping the **last** one starting
with `previous_scheme=` (the loop overwrites `prev`), strip the part after
the first `=`, and if non-empty activate it. -/
def restore_power (s : PState) : Bool × PState :=
  match s.stateFile with
  | none => (false, s)
  | some lines =>
    let prev : Option (List Char) := lines.foldl
      (fun acc line =>
        if startsWithChars PREV_KEY line
        then some (stripChars (splitAfterFirstEq line)) else acc)
      none
    match prev with
    | some p =>
      if p = [] then (false, s) else setactive p s
    | none => (false, s)

/-! ### Startup manager (`toggle_startup`, lines 239–257)

A registry key is modelled as the association list of its values
`(name, data, type)`; a key that does not exist (so `winreg.OpenKey`
raises `FileNotFoundError`) is `none`.  Each hive has the live `Run` key
and the shadow `Run_Disabled_By_Corzz` key. -/

abbrev RegEntry := String × String × Nat

/-- Embeds `winreg.QueryValueEx`: first entry with the given name. -/
def lookupV (l : List RegEntry) (n : String) : Option (String × Nat) :=
  match l with
  | [] => none
  | (m, v, t) :: rest => if m = n then some (v, t) else lookupV rest n

/-- Embeds `winreg.SetValueEx`: overwrite the named value if present (registry
value names are unique), otherwise add it. -/
def setV (l : List RegEntry) (n : String) (v : String) (t : Nat) :
    List RegEntry :=
  match l with
  | [] => [(n, v, t)]
  | (m, w, u) :: rest =>
    if m = n then (n, v, t) :: rest else (m, w, u) :: setV rest n v t

/-- Embeds `winreg.DeleteValue`: remove the named value (first occurrence). -/
def deleteV (l : List RegEntry) (n : String) : List RegEntry :=
  match l with
  | [] => []
  | (m, w, u) :: rest =>
    if m = n then rest else (m, w, u) :: deleteV rest n

structure RegHive : Type where
  runKey : Option (List RegEntry)
  disabledKey : Option (List RegEntry)
deriving DecidableEq, Repr

structure Registry : Type where
  hkcu : RegHive
  hklm : RegHive
deriving DecidableEq, Repr

/-- The body of `toggle_startup` once the hive is chosen.  `src`/`dst` are
the live key and the shadow key (swapped by `disable is False`); opening a
missing source key or querying a missing value raises `FileNotFoundError`,
caught as `return False`.  Otherwise `CreateKey` materializes the
destination key, the value is copied there, deleted from the source, and
the call returns `True`. -/
def toggleHive (name : String) (disable : Bool) (h : RegHive) :
    Bool × RegHive :=
  let src := if disable = false then h.disabledKey else h.runKey
  match src with
  | none => (false, h)
  | some srcEntries =>
    match lookupV srcEntries name with
    | none => (false, h)
    | some (v, t) =>
      let dstEntries := (if disable = false then h.runKey else h.disabledKey).getD []
      let dstEntries := setV dstEntries name v t
      let srcEntries := deleteV srcEntries name
      if disable = false then
        (true, { runKey := some dstEntries, disabledKey := some srcEntries })
      else
        (true, { runKey := some srcEntries, disabledKey := some dstEntries })

/-- Embeds `toggle_startup(name, hive_str, disable)` (lines 239–257): the hive is
`HKEY_CURRENT_USER` when `hive_str == "HKCU"` and `HKEY_LOCAL_MACHINE`
otherwise.  (The `import winreg` failure branch, impossible on Windows, is
not modelled.) -/
def toggle_startup (name : String) (hive_str : String) (disable : Bool)
    (reg : Registry) : Bool × Registry :=
  if hive_str = "HKCU" then
    ((toggleHive name disable reg.hkcu).1,
      { reg with hkcu := (toggleHive name disable reg.hkcu).2 })
  else
    ((toggleHive name disable reg.hklm).1,
      { reg with hklm := (toggleHive name disable reg.hklm).2 })

/-- Number of entries of a key carrying a given value name; the registry
itself guarantees this is at most 1 for every real key. -/
def countKey (l : List RegEntry) (n : String) : Nat :=
  match l with
  | [] => 0
  | (m, _, _) :: rest => (if m = n then 1 else 0) + countKey rest n

/-! ### CPU benchmark (`bench_cpu`, lines 195–209)

The inner `while j*j <= i` loop of trial division. -/

def trialLoop (i : Nat) (j : Nat) : Bool :=
  if j * j ≤ i then
    if i % j = 0 then false else trialLoop i (j + 1)
  else true
termination_by i + 1 - j
decreasing_by
  rename_i h _
  have hj : j ≤ i := by
    rcases Nat.eq_zero_or_pos j with h0 | h0
    · omega
    · exact Nat.le_trans (Nat.le_mul_of_pos_left j h0) h
  omega

/-- The primality test of the `for i in range(2, n)` body: `prime` stays
`True` iff no `j` with `j*j <= i` divides `i`, starting from `j = 2`. -/
def trialPrime (i : Nat) : Bool := trialLoop i 2

/-- The value of `count` after the loop: how many `i in range(2, n)` pass
trial division. -/
def bench_cpu_count (n : Nat) : Nat :=
  (List.range' 2 (n - 2)).countP trialPrime

/-- The returned value of `bench_cpu` is `count/elapsed`; the wall-clock measurements are
abstracted into the positive duration `elapsed`. -/
def bench_cpu (n : Nat) (elapsed : ℚ) : ℚ :=
  (bench_cpu_count n : ℚ) / elapsed

/-- A file's deletion sequence (both `stat` calls, `chmod`, `unlink`)
completes successfully and the file was not age-skipped. -/
def deletedOk (cutoff : Option Int) (f : TFile) : Bool :=
  f.statOk && !ageSkip cutoff f.mtime && f.chmodOk && f.unlinkOk

/-! ## Theorems -/

theorem cleanStep_eq (cutoff : Option Int) (a : Nat) (f : TFile) :
    cleanStep cutoff a f = if deletedOk cutoff f then a + f.size else a := by
  unfold cleanStep deletedOk
  cases hs : f.statOk <;> cases ha : ageSkip cutoff f.mtime <;>
    cases hc : f.chmodOk <;> cases hu : f.unlinkOk <;> simp

theorem foldl_cleanStep (cutoff : Option Int) (l : List TFile) (a : Nat) :
    l.foldl (fun freed f => cleanStep cutoff freed f) a =
      a + ((l.filter (deletedOk cutoff)).map TFile.size).sum := by
  induction l generalizing a with
  | nil => simp
  | cons f rest ih =>
    rw [List.foldl_cons, cleanStep_eq]
    cases hp : deletedOk cutoff f
    · rw [ih]
      simp [List.filter_cons, hp]
    · rw [ih]
      simp [List.filter_cons, hp]
      omega

/-- C4: the freed-bytes total returned by `clean_temp` counts exactly the
sizes of the visited files whose stat/chmod/unlink sequence succeeded (and
which were not age-skipped); a file whose deletion fails contributes
nothing, and the walk continues over the remaining files — `clean_temp`
never raises (it is a total function). -/
theorem clean_temp_counts_exactly_deleted (older_days now : Int)
    (files : List TFile) :
    clean_temp older_days now files =
      ((files.filter (deletedOk (cutoffOf older_days now))).map TFile.size).sum := by
  unfold clean_temp
  rw [foldl_cleanStep, Nat.zero_add]

/-- C5: with `older_days = 0` the cutoff is `None`, so no age test is ever
applied — no visited file is age-skipped, whatever its modification time —
and the freed total depends only on the success of the deletion sequence,
not on any file's modification time. -/
theorem clean_temp_older_days_zero (now : Int) (files : List TFile) :
    (∀ m : Int, ageSkip (cutoffOf 0 now) m = false) ∧
    clean_temp 0 now files =
      ((files.filter (fun f => f.statOk && f.chmodOk && f.unlinkOk)).map
        TFile.size).sum := by
  constructor
  · intro m
    simp [cutoffOf, ageSkip]
  · unfold clean_temp
    rw [foldl_cleanStep]
    have hDel : deletedOk (cutoffOf 0 now) =
        (fun f => f.statOk && f.chmodOk && f.unlinkOk) := by
      funext f
      simp [deletedOk, cutoffOf, ageSkip]
    rw [hDel, Nat.zero_add]

/-- C6: `run` is a total function (the embedding of "never raises to its
caller"), always yielding a `(code, stdout, stderr)` triple: on normal
completion the captured triple, on timeout `(1, "", "Timeout")`, and on any
other launch failure code `1` with the error text as stderr. -/
theorem run_returns_structured_triple :
    (∀ c o e, run (ProcResult.completed c o e) = (c, o, e)) ∧
    run ProcResult.timeoutExpired = (1, "", "Timeout") ∧
    (∀ m, run (ProcResult.launchError m) = (1, "", m)) :=
  ⟨fun _ _ _ => rfl, rfl, fun _ => rfl⟩

/-- C3: when the state file is absent, `restore_power` returns `False` and
the whole state — active scheme, scheme list, state file and the log of
issued `/setactive` commands — is unchanged, so no scheme-activation
command is issued. -/
theorem restore_power_no_state (s : PState) (h : s.stateFile = none) :
    restore_power s = (false, s) := by
  unfold restore_power
  rw [h]

theorem restore_power_no_state_witness :
    restore_power ⟨"g".toList, ["g".toList], none, []⟩ =
      (false, ⟨"g".toList, ["g".toList], none, []⟩) :=
  restore_power_no_state ⟨"g".toList, ["g".toList], none, []⟩ rfl

/-- C8: a failed log-file write is swallowed (`log` is total and leaves the
log unchanged), but a failure to create the log directory happens in the
module-level `LOG_DIR.mkdir` call, which has no exception handler: the
error propagates and the process aborts before any action runs, contrary
to the claim that *every* logging-subsystem failure is swallowed. -/
theorem log_write_swallowed_but_mkdir_propagates :
    (∀ ts logFile msg, log false ts logFile msg = logFile) ∧
    logDirMkdir false = Except.error "PermissionError" :=
  ⟨fun _ _ _ => rfl, rfl⟩

/-- C10: when the active-scheme query parses to nothing (`prev` is `None`),
`enable_ultimate` leaves the persisted state file exactly as it was —
whether it held an older scheme or was absent — and still proceeds to
activate the Ultimate scheme and report success. -/
theorem enable_ultimate_query_failure_frame (writeOk : Bool) (s : PState) :
    (enable_ultimate none writeOk s).2.stateFile = s.stateFile ∧
    (enable_ultimate none writeOk s).1 = true ∧
    (enable_ultimate none writeOk s).2.active = POWER_ULTIMATE_GUID := by
  unfold enable_ultimate setactive
  by_cases hm : POWER_ULTIMATE_GUID ∈ s.schemes.map toLowerChars
  · have hl : toLowerChars POWER_ULTIMATE_GUID = POWER_ULTIMATE_GUID := by decide
    simp [hm, hl]
  · have hl : toLowerChars POWER_ULTIMATE_GUID = POWER_ULTIMATE_GUID := by decide
    simp [hm, hl]

theorem guidSearch_shape : ∀ (l : List Char) (g : Guid),
    guidSearch l = some g → g.length = 36 ∧ g.all isGuidChar = true := by
  intro l
  induction l with
  | nil => intro g h; simp [guidSearch] at h
  | cons c rest ih =>
    intro g h
    rw [guidSearch] at h
    split at h
    · dsimp only at h
      split at h
      · rename_i hcond
        obtain ⟨h1, h2⟩ := Bool.and_eq_true_iff.mp hcond
        obtain rfl : _ = g := Option.some.inj h
        exact ⟨of_decide_eq_true h1, h2⟩
      · exact ih g h
    · exact ih g h

/-- C7 (amended): every GUID returned by `get_active_power_scheme_guid` is
a 36-character string over the hyphenated-hex class extracted by the
pattern match (and when the command succeeds with non-empty output the
result is exactly the regex search); when the command fails or no GUID can
be parsed the function returns `None` — not the string `"unknown"` (it is
the caller, `menu_power`, that renders `None` as `Unknown`). -/
theorem get_active_guid_contract (rc : Int) (out : List Char) :
    (∀ g, get_active_power_scheme_guid rc out = some g →
        g.length = 36 ∧ g.all isGuidChar = true) ∧
    (rc = 0 → out ≠ [] → get_active_power_scheme_guid rc out = guidSearch out) ∧
    (rc ≠ 0 → get_active_power_scheme_guid rc out = none) ∧
    (guidSearch out = none → get_active_power_scheme_guid rc out = none) := by
  refine ⟨?_, ?_, ?_, ?_⟩
  · intro g h
    unfold get_active_power_scheme_guid at h
    split at h
    · exact guidSearch_shape out g h
    · exact absurd h (by simp)
  · intro h1 h2
    unfold get_active_power_scheme_guid
    simp [h1, h2]
  · intro h1
    unfold get_active_power_scheme_guid
    simp [h1]
  · intro h1
    unfold get_active_power_scheme_guid
    split
    · exact h1
    · rfl

theorem get_active_guid_contract_witness :
    ("381b4222-f694-41f0-9685-ff5bb260df2e".toList.length = 36 ∧
      "381b4222-f694-41f0-9685-ff5bb260df2e".toList.all isGuidChar = true) ∧
    get_active_power_scheme_guid 0
        "Power Scheme GUID: 381b4222-f694-41f0-9685-ff5bb260df2e  (Balanced)".toList =
      guidSearch
        "Power Scheme GUID: 381b4222-f694-41f0-9685-ff5bb260df2e  (Balanced)".toList ∧
    get_active_power_scheme_guid 1 "x".toList = none ∧
    get_active_power_scheme_guid 0 "no guid in this output".toList = none :=
  ⟨(get_active_guid_contract 0
      "Power Scheme GUID: 381b4222-f694-41f0-9685-ff5bb260df2e  (Balanced)".toList).1
      "381b4222-f694-41f0-9685-ff5bb260df2e".toList (by decide),
   (get_active_guid_contract 0
      "Power Scheme GUID: 381b4222-f694-41f0-9685-ff5bb260df2e  (Balanced)".toList).2.1
      rfl (by decide),
   (get_active_guid_contract 1 "x".toList).2.2.1 (by decide),
   (get_active_guid_contract 0 "no guid in this output".toList).2.2.2 (by decide)⟩

/-- C7's claim, as stated, is false: on a failed query the function returns
`None`, not the string `"unknown"`. -/
theorem get_active_guid_unknown_cex :
    get_active_power_scheme_guid 1 [] = none ∧
    get_active_power_scheme_guid 1 [] ≠ some ("unknown".toList) := by
  constructor
  · decide
  · decide

theorem startsWithChars_append (p rest : List Char) :
    startsWithChars p (p ++ rest) = true := by
  induction p with
  | nil => rfl
  | cons c cs ih => simp [startsWithChars, ih]

theorem splitAfterFirstEq_no_eq (pre : List Char) (x : List Char)
    (h : ∀ c ∈ pre, ¬(c = '=')) :
    splitAfterFirstEq (pre ++ '=' :: x) = x := by
  induction pre with
  | nil => simp [splitAfterFirstEq]
  | cons c cs ih =>
    rw [List.cons_append, splitAfterFirstEq]
    rw [if_neg (h c (List.mem_cons_self c cs))]
    exact ih fun d hd => h d (List.mem_cons_of_mem c hd)

theorem splitAfterFirstEq_prevKey (x : List Char) :
    splitAfterFirstEq (PREV_KEY ++ x) = x := by
  have hk : PREV_KEY = "previous_scheme".toList ++ '=' :: [] := by decide
  rw [hk, List.append_assoc]
  exact splitAfterFirstEq_no_eq _ x (by decide)

theorem isGuidChar_not_ws (c : Char) (h : isGuidChar c = true) :
    c.isWhitespace = false := by
  cases hw : c.isWhitespace
  · rfl
  · exfalso
    have hcases : c = ' ' ∨ c = '\t' ∨ c = '\r' ∨ c = '\n' := by
      simpa [Char.isWhitespace, or_assoc] using hw
    rcases hcases with h1 | h1 | h1 | h1 <;> subst h1 <;>
      exact absurd h (by decide)

theorem dropWhile_ws_eq_self (l : List Char)
    (h : ∀ c ∈ l, c.isWhitespace = false) :
    l.dropWhile Char.isWhitespace = l := by
  cases l with
  | nil => rfl
  | cons c rest =>
    rw [List.dropWhile_cons, h c (List.mem_cons_self c rest)]
    simp

theorem stripChars_guid (l : List Char) (h : l.all isGuidChar = true) :
    stripChars l = l := by
  have hws : ∀ c ∈ l, c.isWhitespace = false := fun c hc =>
    isGuidChar_not_ws c (List.all_eq_true.mp h c hc)
  unfold stripChars
  rw [dropWhile_ws_eq_self l hws]
  rw [dropWhile_ws_eq_self l.reverse (fun c hc => hws c (List.mem_reverse.mp hc))]
  exact List.reverse_reverse l

theorem restore_power_single (s : PState) (p : Guid)
    (hf : s.stateFile = some [PREV_KEY ++ p]) (hp : p ≠ [])
    (hg : p.all isGuidChar = true)
    (hm : toLowerChars p ∈ s.schemes.map toLowerChars) :
    restore_power s =
      (true, { s with active := p, setactiveLog := s.setactiveLog ++ [p] }) := by
  unfold restore_power
  rw [hf]
  simp only [List.foldl_cons, List.foldl_nil, startsWithChars_append, if_true,
    splitAfterFirstEq_prevKey, stripChars_guid p hg]
  rw [if_neg hp]
  unfold setactive
  rw [if_pos hm]
  simp [hf]

theorem enable_ultimate_some_fields (prev : Guid) (s : PState) (hprev : prev ≠ []) :
    (enable_ultimate (some prev) true s).1 = true ∧
    (enable_ultimate (some prev) true s).2.active = POWER_ULTIMATE_GUID ∧
    (enable_ultimate (some prev) true s).2.stateFile = some [PREV_KEY ++ prev] ∧
    (∀ g, g ∈ s.schemes → g ∈ (enable_ultimate (some prev) true s).2.schemes) ∧
    POWER_ULTIMATE_GUID ∈
      (enable_ultimate (some prev) true s).2.schemes.map toLowerChars := by
  have hl : toLowerChars POWER_ULTIMATE_GUID = POWER_ULTIMATE_GUID := by decide
  unfold enable_ultimate setactive
  by_cases hm : POWER_ULTIMATE_GUID ∈ s.schemes.map toLowerChars
  · simp [hm, hl, hprev]
  · simp [hm, hl, hprev]
    exact fun g hg => Or.inl hg

/-- C1: starting from a well-formed state (the active scheme is listed and
is a GUID-shaped token), a successful `enable_ultimate` followed
immediately by `restore_power` reactivates the scheme that was active just
before the `enable_ultimate` call; and a second consecutive
`enable_ultimate` overwrites the persisted previous scheme with the
Ultimate GUID, so `restore_power` then reactivates the Ultimate scheme
itself. -/
theorem enable_then_restore_roundtrip (s : PState)
    (hmem : s.active ∈ s.schemes) (hne : s.active ≠ [])
    (hguid : s.active.all isGuidChar = true) :
    (enable_ultimate (some s.active) true s).1 = true ∧
    (restore_power (enable_ultimate (some s.active) true s).2).1 = true ∧
    (restore_power (enable_ultimate (some s.active) true s).2).2.active = s.active ∧
    (enable_ultimate (some (enable_ultimate (some s.active) true s).2.active) true
        (enable_ultimate (some s.active) true s).2).2.stateFile =
      some [PREV_KEY ++ POWER_ULTIMATE_GUID] ∧
    (restore_power
        (enable_ultimate (some (enable_ultimate (some s.active) true s).2.active) true
          (enable_ultimate (some s.active) true s).2).2).1 = true ∧
    (restore_power
        (enable_ultimate (some (enable_ultimate (some s.active) true s).2.active) true
          (enable_ultimate (some s.active) true s).2).2).2.active =
      POWER_ULTIMATE_GUID := by
  obtain ⟨h1ok, h1act, h1file, h1sub, h1ult⟩ :=
    enable_ultimate_some_fields s.active s hne
  have hr1 := restore_power_single (enable_ultimate (some s.active) true s).2
    s.active h1file hne hguid
    (List.mem_map_of_mem toLowerChars (h1sub s.active hmem))
  rw [h1act]
  obtain ⟨h2ok, h2act, h2file, h2sub, h2ult⟩ :=
    enable_ultimate_some_fields POWER_ULTIMATE_GUID
      (enable_ultimate (some s.active) true s).2 (by decide)
  have hr2 := restore_power_single
    (enable_ultimate (some POWER_ULTIMATE_GUID) true
      (enable_ultimate (some s.active) true s).2).2
    POWER_ULTIMATE_GUID h2file (by decide) (by decide)
    (by rw [show toLowerChars POWER_ULTIMATE_GUID = POWER_ULTIMATE_GUID from by decide]
        exact h2ult)
  refine ⟨h1ok, ?_, ?_, h2file, ?_, ?_⟩
  · rw [hr1]
  · rw [hr1]
  · rw [hr2]
  · rw [hr2]

theorem enable_then_restore_roundtrip_witness :
    (enable_ultimate
        (some (PState.mk "aaaaaaaa-aaaa-aaaa-aaaa-aaaaaaaaaaaa".toList
          ["aaaaaaaa-aaaa-aaaa-aaaa-aaaaaaaaaaaa".toList] none []).active) true
        (PState.mk "aaaaaaaa-aaaa-aaaa-aaaa-aaaaaaaaaaaa".toList
          ["aaaaaaaa-aaaa-aaaa-aaaa-aaaaaaaaaaaa".toList] none [])).1 = true ∧
    (restore_power (enable_ultimate
        (some (PState.mk "aaaaaaaa-aaaa-aaaa-aaaa-aaaaaaaaaaaa".toList
          ["aaaaaaaa-aaaa-aaaa-aaaa-aaaaaaaaaaaa".toList] none []).active) true
        (PState.mk "aaaaaaaa-aaaa-aaaa-aaaa-aaaaaaaaaaaa".toList
          ["aaaaaaaa-aaaa-aaaa-aaaa-aaaaaaaaaaaa".toList] none [])).2).1 = true ∧
    (restore_power (enable_ultimate
        (some (PState.mk "aaaaaaaa-aaaa-aaaa-aaaa-aaaaaaaaaaaa".toList
          ["aaaaaaaa-aaaa-aaaa-aaaa-aaaaaaaaaaaa".toList] none []).active) true
        (PState.mk "aaaaaaaa-aaaa-aaaa-aaaa-aaaaaaaaaaaa".toList
          ["aaaaaaaa-aaaa-aaaa-aaaa-aaaaaaaaaaaa".toList] none [])).2).2.active =
      (PState.mk "aaaaaaaa-aaaa-aaaa-aaaa-aaaaaaaaaaaa".toList
        ["aaaaaaaa-aaaa-aaaa-aaaa-aaaaaaaaaaaa".toList] none []).active ∧
    (enable_ultimate (some (enable_ultimate
        (some (PState.mk "aaaaaaaa-aaaa-aaaa-aaaa-aaaaaaaaaaaa".toList
          ["aaaaaaaa-aaaa-aaaa-aaaa-aaaaaaaaaaaa".toList] none []).active) true
        (PState.mk "aaaaaaaa-aaaa-aaaa-aaaa-aaaaaaaaaaaa".toList
          ["aaaaaaaa-aaaa-aaaa-aaaa-aaaaaaaaaaaa".toList] none [])).2.active) true
        (enable_ultimate
        (some (PState.mk "aaaaaaaa-aaaa-aaaa-aaaa-aaaaaaaaaaaa".toList
          ["aaaaaaaa-aaaa-aaaa-aaaa-aaaaaaaaaaaa".toList] none []).active) true
        (PState.mk "aaaaaaaa-aaaa-aaaa-aaaa-aaaaaaaaaaaa".toList
          ["aaaaaaaa-aaaa-aaaa-aaaa-aaaaaaaaaaaa".toList] none [])).2).2.stateFile =
      some [PREV_KEY ++ POWER_ULTIMATE_GUID] ∧
    (restore_power (enable_ultimate (some (enable_ultimate
        (some (PState.mk "aaaaaaaa-aaaa-aaaa-aaaa-aaaaaaaaaaaa".toList
          ["aaaaaaaa-aaaa-aaaa-aaaa-aaaaaaaaaaaa".toList] none []).active) true
        (PState.mk "aaaaaaaa-aaaa-aaaa-aaaa-aaaaaaaaaaaa".toList
          ["aaaaaaaa-aaaa-aaaa-aaaa-aaaaaaaaaaaa".toList] none [])).2.active) true
        (enable_ultimate
        (some (PState.mk "aaaaaaaa-aaaa-aaaa-aaaa-aaaaaaaaaaaa".toList
          ["aaaaaaaa-aaaa-aaaa-aaaa-aaaaaaaaaaaa".toList] none []).active) true
        (PState.mk "aaaaaaaa-aaaa-aaaa-aaaa-aaaaaaaaaaaa".toList
          ["aaaaaaaa-aaaa-aaaa-aaaa-aaaaaaaaaaaa".toList] none [])).2).2).1 = true ∧
    (restore_power (enable_ultimate (some (enable_ultimate
        (some (PState.mk "aaaaaaaa-aaaa-aaaa-aaaa-aaaaaaaaaaaa".toList
          ["aaaaaaaa-aaaa-aaaa-aaaa-aaaaaaaaaaaa".toList] none []).active) true
        (PState.mk "aaaaaaaa-aaaa-aaaa-aaaa-aaaaaaaaaaaa".toList
          ["aaaaaaaa-aaaa-aaaa-aaaa-aaaaaaaaaaaa".toList] none [])).2.active) true
        (enable_ultimate
        (some (PState.mk "aaaaaaaa-aaaa-aaaa-aaaa-aaaaaaaaaaaa".toList
          ["aaaaaaaa-aaaa-aaaa-aaaa-aaaaaaaaaaaa".toList] none []).active) true
        (PState.mk "aaaaaaaa-aaaa-aaaa-aaaa-aaaaaaaaaaaa".toList
          ["aaaaaaaa-aaaa-aaaa-aaaa-aaaaaaaaaaaa".toList] none [])).2).2).2.active =
      POWER_ULTIMATE_GUID :=
  enable_then_restore_roundtrip
    (PState.mk "aaaaaaaa-aaaa-aaaa-aaaa-aaaaaaaaaaaa".toList
      ["aaaaaaaa-aaaa-aaaa-aaaa-aaaaaaaaaaaa".toList] none [])
    (by decide) (by decide) (by decide)

theorem lookupV_setV (l : List RegEntry) (n : String) (v : String) (t : Nat) :
    lookupV (setV l n v t) n = some (v, t) := by
  induction l with
  | nil => simp [setV, lookupV]
  | cons e rest ih =>
    obtain ⟨m, w, u⟩ := e
    by_cases h : m = n
    · simp [setV, h, lookupV]
    · simp [setV, h, lookupV, ih]

theorem countKey_setV (l : List RegEntry) (n : String) (v : String) (t : Nat) :
    countKey (setV l n v t) n = max (countKey l n) 1 := by
  induction l with
  | nil => simp [setV, countKey]
  | cons e rest ih =>
    obtain ⟨m, w, u⟩ := e
    by_cases h : m = n
    · simp [setV, h, countKey]
    · simp [setV, h, countKey, ih]

theorem lookupV_none_of_countKey_zero (l : List RegEntry) (n : String)
    (h : countKey l n = 0) : lookupV l n = none := by
  induction l with
  | nil => rfl
  | cons e rest ih =>
    obtain ⟨m, w, u⟩ := e
    by_cases hm : m = n
    · simp [countKey, hm] at h
    · simp only [lookupV, if_neg hm]
      exact ih (by simpa [countKey, hm] using h)

theorem lookupV_deleteV_of_countKey_le_one (l : List RegEntry) (n : String)
    (h : countKey l n ≤ 1) : lookupV (deleteV l n) n = none := by
  induction l with
  | nil => rfl
  | cons e rest ih =>
    obtain ⟨m, w, u⟩ := e
    by_cases hm : m = n
    · have h0 : countKey rest n = 0 := by
        simp [countKey, hm] at h
        omega
      simp only [deleteV, if_pos hm]
      exact lookupV_none_of_countKey_zero rest n h0
    · simp only [deleteV, if_neg hm, lookupV]
      exact ih (by simpa [countKey, hm] using h)

theorem toggleHive_roundtrip (h : RegHive) (name v : String) (t : Nat)
    (rs : List RegEntry) (hrun : h.runKey = some rs)
    (hval : lookupV rs name = some (v, t))
    (hcnt : countKey (h.disabledKey.getD []) name ≤ 1) :
    (toggleHive name true h).1 = true ∧
    (toggleHive name false (toggleHive name true h).2).1 = true ∧
    (∃ rs2, (toggleHive name false (toggleHive name true h).2).2.runKey = some rs2 ∧
      lookupV rs2 name = some (v, t)) ∧
    (∃ ds2,
      (toggleHive name false (toggleHive name true h).2).2.disabledKey = some ds2 ∧
      lookupV ds2 name = none) := by
  have e1 : toggleHive name true h =
      (true, RegHive.mk (some (deleteV rs name))
        (some (setV (h.disabledKey.getD []) name v t))) := by
    simp [toggleHive, hrun, hval]
  have e2 : toggleHive name false
      (RegHive.mk (some (deleteV rs name))
        (some (setV (h.disabledKey.getD []) name v t))) =
      (true, RegHive.mk (some (setV (deleteV rs name) name v t))
        (some (deleteV (setV (h.disabledKey.getD []) name v t) name))) := by
    simp [toggleHive, lookupV_setV]
  rw [e1]
  dsimp only
  rw [e2]
  dsimp only
  refine ⟨rfl, rfl, ⟨_, rfl, lookupV_setV _ _ _ _⟩, ⟨_, rfl, ?_⟩⟩
  apply lookupV_deleteV_of_countKey_le_one
  rw [countKey_setV]
  omega

/-- C2: for a startup entry present in the live `Run` key of the selected
hive with value `v` and type `t`, disabling then re-enabling it restores
the entry with its original value and type in the live `Run` key, and the
shadow `Run_Disabled_By_Corzz` key retains no entry of that name.  (The
`countKey` hypothesis is the registry's own invariant that a key holds at
most one value per name.) -/
theorem toggle_startup_roundtrip (reg : Registry) (name hive_str v : String)
    (t : Nat) (rs : List RegEntry)
    (hrun : (if hive_str = "HKCU" then reg.hkcu else reg.hklm).runKey = some rs)
    (hval : lookupV rs name = some (v, t))
    (hcnt : countKey ((if hive_str = "HKCU" then reg.hkcu
        else reg.hklm).disabledKey.getD []) name ≤ 1) :
    (toggle_startup name hive_str true reg).1 = true ∧
    (toggle_startup name hive_str false
      (toggle_startup name hive_str true reg).2).1 = true ∧
    (∃ rs2, (if hive_str = "HKCU"
        then (toggle_startup name hive_str false
          (toggle_startup name hive_str true reg).2).2.hkcu
        else (toggle_startup name hive_str false
          (toggle_startup name hive_str true reg).2).2.hklm).runKey = some rs2 ∧
      lookupV rs2 name = some (v, t)) ∧
    (∃ ds2, (if hive_str = "HKCU"
        then (toggle_startup name hive_str false
          (toggle_startup name hive_str true reg).2).2.hkcu
        else (toggle_startup name hive_str false
          (toggle_startup name hive_str true reg).2).2.hklm).disabledKey = some ds2 ∧
      lookupV ds2 name = none) := by
  by_cases hH : hive_str = "HKCU"
  · rw [if_pos hH] at hrun hcnt
    obtain ⟨e1ok, e2ok, hrs2, hds2⟩ :=
      toggleHive_roundtrip reg.hkcu name v t rs hrun hval hcnt
    simp only [toggle_startup, if_pos hH]
    exact ⟨e1ok, e2ok, hrs2, hds2⟩
  · rw [if_neg hH] at hrun hcnt
    obtain ⟨e1ok, e2ok, hrs2, hds2⟩ :=
      toggleHive_roundtrip reg.hklm name v t rs hrun hval hcnt
    simp only [toggle_startup, if_neg hH]
    exact ⟨e1ok, e2ok, hrs2, hds2⟩

theorem toggle_startup_roundtrip_witness :
    (toggle_startup "App" "HKCU" true
      (Registry.mk (RegHive.mk (some [("App", "app.exe", 1)]) none)
        (RegHive.mk none none))).1 = true ∧
    (toggle_startup "App" "HKCU" false
      (toggle_startup "App" "HKCU" true
        (Registry.mk (RegHive.mk (some [("App", "app.exe", 1)]) none)
          (RegHive.mk none none))).2).1 = true ∧
    (∃ rs2, (if "HKCU" = "HKCU"
        then (toggle_startup "App" "HKCU" false
          (toggle_startup "App" "HKCU" true
            (Registry.mk (RegHive.mk (some [("App", "app.exe", 1)]) none)
              (RegHive.mk none none))).2).2.hkcu
        else (toggle_startup "App" "HKCU" false
          (toggle_startup "App" "HKCU" true
            (Registry.mk (RegHive.mk (some [("App", "app.exe", 1)]) none)
              (RegHive.mk none none))).2).2.hklm).runKey = some rs2 ∧
      lookupV rs2 "App" = some ("app.exe", 1)) ∧
    (∃ ds2, (if "HKCU" = "HKCU"
        then (toggle_startup "App" "HKCU" false
          (toggle_startup "App" "HKCU" true
            (Registry.mk (RegHive.mk (some [("App", "app.exe", 1)]) none)
              (RegHive.mk none none))).2).2.hkcu
        else (toggle_startup "App" "HKCU" false
          (toggle_startup "App" "HKCU" true
            (Registry.mk (RegHive.mk (some [("App", "app.exe", 1)]) none)
              (RegHive.mk none none))).2).2.hklm).disabledKey = some ds2 ∧
      lookupV ds2 "App" = none) :=
  toggle_startup_roundtrip
    (Registry.mk (RegHive.mk (some [("App", "app.exe", 1)]) none)
      (RegHive.mk none none))
    "App" "HKCU" "app.exe" 1 [("App", "app.exe", 1)]
    (by decide) (by decide) (by decide)

theorem trialLoop_iff_aux (i : Nat) :
    ∀ d j, i + 1 - j ≤ d →
      (trialLoop i j = true ↔ ∀ k, j ≤ k → k * k ≤ i → i % k ≠ 0) := by
  intro d
  induction d with
  | zero =>
    intro j hdj
    have hle : ¬j * j ≤ i := by
      intro hc
      have h1 : j ≤ j * j := Nat.le_mul_of_pos_left j (by omega)
      omega
    rw [trialLoop, if_neg hle]
    constructor
    · intro _ k hk hkk
      exact absurd (Nat.le_trans (Nat.mul_le_mul hk hk) hkk) hle
    · intro _
      rfl
  | succ d ih =>
    intro j hdj
    by_cases hle : j * j ≤ i
    · by_cases hdvd : i % j = 0
      · rw [trialLoop, if_pos hle, if_pos hdvd]
        constructor
        · intro h
          exact absurd h (by simp)
        · intro h
          exact absurd hdvd (h j (Nat.le_refl j) hle)
      · rw [trialLoop, if_pos hle, if_neg hdvd]
        rw [ih (j + 1) (by omega)]
        constructor
        · intro h k hk hkk
          rcases Nat.eq_or_lt_of_le hk with rfl | hlt
          · exact hdvd
          · exact h k hlt hkk
        · intro h k hk hkk
          exact h k (Nat.le_of_succ_le hk) hkk
    · rw [trialLoop, if_neg hle]
      constructor
      · intro _ k hk hkk
        exact absurd (Nat.le_trans (Nat.mul_le_mul hk hk) hkk) hle
      · intro _
        rfl

theorem trialLoop_iff (i j : Nat) :
    trialLoop i j = true ↔ ∀ k, j ≤ k → k * k ≤ i → i % k ≠ 0 :=
  trialLoop_iff_aux i (i + 1) j (by omega)

theorem trialPrime_iff_prime (i : Nat) (h2 : 2 ≤ i) :
    trialPrime i = true ↔ Nat.Prime i := by
  rw [trialPrime, trialLoop_iff, Nat.prime_def_le_sqrt]
  constructor
  · intro h
    refine ⟨h2, fun m hm hms hdvd => ?_⟩
    exact h m hm (Nat.le_sqrt.mp hms) (Nat.dvd_iff_mod_eq_zero.mp hdvd)
  · rintro ⟨-, h⟩ k hk hkk hmod
    exact h k hk (Nat.le_sqrt.mpr hkk) (Nat.dvd_iff_mod_eq_zero.mpr hmod)

/-- C9: the `count` accumulated by `bench_cpu` over `range(2, n)` is
exactly the number of primes in the interval `[2, n)` (trial division with
divisors up to the square root decides genuine primality), and the value
returned is that count divided by the elapsed time — a throughput figure,
not the count itself. -/
theorem bench_cpu_counts_primes (n : Nat) (elapsed : ℚ) :
    bench_cpu_count n =
      (List.range' 2 (n - 2)).countP (fun i => decide (Nat.Prime i)) ∧
    bench_cpu n elapsed = (bench_cpu_count n : ℚ) / elapsed := by
  refine ⟨?_, rfl⟩
  unfold bench_cpu_count
  apply List.countP_congr
  intro i hi
  have h2 : 2 ≤ i := by
    obtain ⟨k, -, rfl⟩ := List.mem_range'.mp hi
    omega
  rw [trialPrime_iff_prime i h2]
  simp

end Corzz
